import Mathlib

set_option maxRecDepth 4000

/-!
# Shallow embedding of the crowd-up moderation backend

This file embeds the five backend modules of the repository
(`server/src/ruleEngine.ts`, `server/src/imageModeration.ts`,
`server/src/llmModeration.ts`, `server/src/index.ts`, `server/src/types.ts`)
as executable Lean definitions and proves the specification claims about
them.

Modelling conventions:
* JavaScript numbers are modelled as exact rationals (`ℚ`); every constant
  appearing in the moderation pipeline (the tenths written `mkRat k 10`,
  thresholds, sizes) is exactly representable, and the only operations used
  are `Math.max`, comparisons and one division, all exact.
* Strings are Lean `String`s; `toLowerCase` is modelled by mapping
  `Char.toLower` over the characters (ASCII-faithful).
* The JavaScript regular expressions used by the code are alternations of
  literal substrings, `a.*b` gaps (where `.` does not match a newline),
  and two small concrete patterns (a phone-number suffix and repeated-text
  backreference patterns); each is embedded as an executable character-level
  matcher with exactly the source's semantics.
* External collaborators (the WHATWG URL parser, the OCR engine, the LLM
  provider, clocks, id generators) are oraclized: their outcome is an input
  to the embedded function, so every theorem quantifies over all
  collaborator behaviours.
-/

namespace CrowdUp

/-- Scores are JavaScript numbers; all pipeline arithmetic is exact. -/
abbrev Score := ℚ

/-! ## String utilities (JS semantics) -/

/-- `String.prototype.toLowerCase()` (ASCII-faithful). -/
def lowerStr (s : String) : String := ⟨s.data.map Char.toLower⟩

/-- Scan for `needle` as a contiguous sublist of the haystack. -/
def infixAt (needle : List Char) : List Char → Bool
  | [] => needle.isEmpty
  | c :: cs => needle.isPrefixOf (c :: cs) || infixAt needle cs

/-- `hay.includes(needle)` / a literal alternative of a JS regex matching. -/
def containsSub (hay needle : String) : Bool :=
  infixAt needle.data hay.data

/-- The whitespace class `\s` of JS regexes, restricted to ASCII. -/
def isWsChar (c : Char) : Bool :=
  c == ' ' || c == '\t' || c == '\n' || c == '\r' || c == '\x0b' || c == '\x0c'

/-- Matcher for the tail of `/phone:\s*\+?\d+/` after the literal
`phone:` has been consumed: `\s*`, optional `+`, then at least one digit. -/
def phoneTailMatch : List Char → Bool
  | [] => false
  | c :: cs =>
    if isWsChar c then phoneTailMatch cs
    else if c == '+' then
      match cs with
      | d :: _ => d.isDigit
      | [] => false
    else c.isDigit

/-- Scan for a match of `/phone:\s*\+?\d+/` starting at any position. -/
def phonePatternAux : List Char → Bool
  | [] => false
  | c :: cs =>
    (("phone:".data.isPrefixOf (c :: cs)) && phoneTailMatch ((c :: cs).drop 6))
      || phonePatternAux cs

/-- `/phone:\s*\+?\d+/` tested anywhere in the string. -/
def phonePattern (s : String) : Bool := phonePatternAux s.data

/-- After an occurrence of the left literal of `a.*b`, match `.*b`
where `.` does not match a newline (JS `.` semantics). -/
def dotStarThen (b : List Char) : List Char → Bool
  | [] => b.isEmpty
  | c :: cs => b.isPrefixOf (c :: cs) || (c != '\n' && dotStarThen b cs)

/-- Match of the JS regex `a.*b` anywhere in the character list. -/
def dotStarMatchAux (a b : List Char) : List Char → Bool
  | [] => false
  | c :: cs =>
    (a.isPrefixOf (c :: cs) && dotStarThen b ((c :: cs).drop a.length))
      || dotStarMatchAux a b cs

/-- The JS regex `a.*b` (with `.` excluding newlines) tested on `s`. -/
def dotStarMatch (s a b : String) : Bool :=
  dotStarMatchAux a.data b.data s.data

/-- `/(.{10,})\1{2,}/`: does the list start with three consecutive copies of
its first `n` characters, with `n ≥ 10` and no newline inside the group
(`.` does not match newlines)? -/
def tripleRepeatAt (l : List Char) (n : Nat) : Bool :=
  let w := l.take n
  decide (10 ≤ n) && decide (w.length = n) && !(w.contains '\n')
    && decide ((l.drop n).take n = w) && decide (((l.drop n).drop n).take n = w)

/-- Any admissible group length at the head of the list. -/
def tripleRepeatHere (l : List Char) : Bool :=
  (List.range (l.length + 1)).any (fun n => tripleRepeatAt l n)

/-- Scan of `/(.{10,})\1{2,}/` over all start positions. -/
def tripleRepeatAux : List Char → Bool
  | [] => false
  | c :: cs => tripleRepeatHere (c :: cs) || tripleRepeatAux cs

/-- The first duplicate-content regex `/(.{10,})\1{2,}/g` of the rule
engine: some substring of length at least 10 repeated three or more times
consecutively. -/
def dupPattern1 (s : String) : Bool := tripleRepeatAux s.data

/-- Adjacent equal non-empty lines. -/
def adjEqLines : List String → Bool
  | a :: b :: rest => (a == b && a != "") || adjEqLines (b :: rest)
  | _ => false

/-- `str.split(/\\s+/)` (JS): split on maximal whitespace runs, keeping the
empty pieces JS produces at a leading or trailing whitespace run. The
second argument is `some acc` while inside a word (accumulated reversed)
and `none` while inside a whitespace run. -/
def splitWsCore : List Char → Option (List Char) → List String
  | [], some acc => [⟨acc.reverse⟩]
  | [], none => [""]
  | c :: cs, some acc =>
    if isWsChar c then (⟨acc.reverse⟩ : String) :: splitWsCore cs none
    else splitWsCore cs (some (c :: acc))
  | c :: cs, none =>
    if isWsChar c then splitWsCore cs none
    else splitWsCore cs (some [c])

/-- `text.split(/\\s+/)` on a whole string. -/
def jsSplitWs (s : String) : List String := splitWsCore s.data (some [])

/-- `str.split(sep)` for a one-character separator (JS and Lean agree on
this semantics; re-implemented structurally over the character list). -/
def splitOnCharCore (c : Char) : List Char → List (List Char)
  | [] => [[]]
  | x :: xs =>
    let r := splitOnCharCore c xs
    if x == c then [] :: r
    else
      match r with
      | h :: t => (x :: h) :: t
      | [] => [[x]]

/-- `str.split(c)` returning strings. -/
def splitOnChar (c : Char) (s : String) : List String :=
  (splitOnCharCore c s.data).map (fun l => ⟨l⟩)

/-- The second duplicate-content regex `/^(.+)$\n^\1$/gm`: two consecutive
identical non-empty lines. -/
def dupPattern2 (s : String) : Bool := adjEqLines (splitOnChar '\n' s)

/-- `str.endsWith(suffix)` (structurally, over the character lists). -/
def jsEndsWith (s suffix : String) : Bool :=
  suffix.data.reverse.isPrefixOf s.data.reverse

/-- The anchored regex `/^\d+\.\d+\.\d+\.\d+/`: one-or-more digits and a dot,
three times, then one-or-more digits, at the start of the string. -/
def digitsThenDot : List Char → Option (List Char)
  | c :: cs =>
    if c.isDigit then
      match cs.dropWhile Char.isDigit with
      | '.' :: rest => some rest
      | _ => none
    else none
  | [] => none

/-- Leading run of one or more digits. -/
def startsWithDigits : List Char → Bool
  | c :: _ => c.isDigit
  | [] => false

/-- `/^\d+\.\d+\.\d+\.\d+/.test(hostname)`. -/
def ipPrefixTest (s : String) : Bool :=
  match digitsThenDot s.data with
  | none => false
  | some r1 =>
    match digitsThenDot r1 with
    | none => false
    | some r2 =>
      match digitsThenDot r2 with
      | none => false
      | some r3 => startsWithDigits r3

/-! ## Data model (`server/src/types.ts`) -/

/-- `CampaignSchema.creator` (zod). -/
structure Creator where
  displayName : String
  accountAgeDays : Int
  pastCampaigns : Int
  verifiedEmail : Bool
  verifiedIdentity : Bool
  userId : String
  profileImage : Option String
deriving DecidableEq, Repr

/-- One element of `CampaignSchema.images`. -/
structure CampaignImage where
  id : String
  mime : String
  url : Option String
  ocrText : Option String
deriving DecidableEq, Repr

/-- `CampaignSchema` (zod), after successful validation. The zod bounds
(title length, positivity of `goal`, …) are preconditions of the pipeline
and are not re-stated here since no claim depends on them. -/
structure Campaign where
  id : Option String
  title : String
  description : String
  goal : Int
  category : String
  links : List String
  images : List CampaignImage
  creator : Creator
deriving DecidableEq, Repr

/-! ## Rule engine (`server/src/ruleEngine.ts`, `performRuleChecks`) -/

/-- Return value of `performRuleChecks`. -/
structure RuleResult where
  score : Score
  rules : List String
deriving DecidableEq, Repr

/-- One `if (cond) { score = Math.max(score, v); rules.push(msg); }` block. -/
def applyRule (cond : Bool) (v : Score) (msg : String) :
    Score × List String → Score × List String :=
  fun p => if cond then (max p.1 v, p.2 ++ [msg]) else p

/-- `bannedFinancialPhrases` of `performRuleChecks`. -/
def bannedFinancialPhrases : List String :=
  ["guaranteed returns", "double your money", "send crypto to",
   "limited time giveaway", "multi level marketing", "mlm",
   "pyramid scheme", "get rich quick", "investment opportunity",
   "financial freedom", "passive income guaranteed", "no risk investment"]

/-- The literal alternatives of `paymentBypassRegex` (all are plain
substrings; the final alternative is the phone pattern, handled apart). -/
def paymentBypassLiterals : List String :=
  ["upi", "paytm", "gpay", "phonepe", "bitcoin", "btc", "eth", "wallet",
   "ifsc", "account number", "a/c", "bank transfer", "direct payment",
   "whatsapp", "telegram"]

/-- `paymentBypassRegex` matched against an already lower-case subject. -/
def paymentBypassCore (t : String) : Bool :=
  paymentBypassLiterals.any (fun p => containsSub t p) || phonePattern t

/-- `paymentBypassRegex.test(s)`; the `/i` flag is modelled by
lower-casing the subject. -/
def paymentBypassTest (s : String) : Bool :=
  paymentBypassCore (lowerStr s)

/-- `medicalKeywords` of `performRuleChecks`. -/
def medicalKeywords : List String :=
  ["surgery", "treatment", "hospital", "medical", "cancer", "tumor", "disease"]

/-- `/hospital.*letter|doctor.*certificate|medical.*report/i` against an
already lower-case subject. -/
def hasVerificationDocsTest (t : String) : Bool :=
  dotStarMatch t "hospital" "letter" || dotStarMatch t "doctor" "certificate"
    || dotStarMatch t "medical" "report"

/-- `impersonationKeywords` of `performRuleChecks`. -/
def impersonationKeywords : List String :=
  ["official", "endorsed by", "sponsored by", "on behalf of",
   "government approved", "celebrity", "famous person"]

/-- `urgencyPhrases` of `performRuleChecks`. -/
def urgencyPhrases : List String :=
  ["limited time", "act now", "hurry", "urgent", "emergency",
   "will expire", "last chance", "today only"]

/-- `uniqueWords / wordCount < (mkRat 6 10)` computed over `text.split(/\s+/)`
(the subject is already lower-cased, so the inner `toLowerCase` is the
identity and the two splits coincide). -/
def lowQualityTest (text : String) : Bool :=
  let words := jsSplitWs text
  let wordCount := words.length
  let uniqueWords := words.dedup.length
  decide (wordCount < 50) || decide (mkRat uniqueWords wordCount < mkRat 3 5)

/-- The nine `if` blocks of `performRuleChecks` in source order, each a
`(condition, score raised to, finding message)` triple. `text` is the
lower-cased `title\ndescription` (so the `/i` regexes applied to it match
plainly) and `imageOcrText` the joined raw OCR strings. -/
def ruleBlocks (campaign : Campaign) (text imageOcrText : String) :
    List (Bool × Score × String) :=
  [(bannedFinancialPhrases.any (fun ph => containsSub text ph),
    (mkRat 7 10), "Detected financial scam language (guaranteed returns, MLM, etc.)"),
   (paymentBypassCore text || paymentBypassTest imageOcrText,
    (mkRat 9 10), "Direct payment instructions found (bypassing platform fees)"),
   ((medicalKeywords.any (fun kw => containsSub text kw))
      && !(hasVerificationDocsTest text),
    (mkRat 4 10), "Medical fundraising without verification documents"),
   (decide (campaign.creator.accountAgeDays < 3) && decide (campaign.goal > 200000),
    (mkRat 4 10), "New account (<3 days) requesting high amount (>â‚¹200k)"),
   (!campaign.creator.verifiedEmail && decide (campaign.goal > 100000),
    (mkRat 3 10), "Unverified email with high goal amount"),
   (dupPattern1 text || dupPattern2 text,
    (mkRat 3 10), "Potential duplicate or spam content detected"),
   (lowQualityTest text,
    (mkRat 2 10), "Low quality content (too short or repetitive)"),
   ((impersonationKeywords.any (fun kw => containsSub text kw))
      && !campaign.creator.verifiedIdentity,
    (mkRat 5 10), "Potential impersonation without identity verification"),
   (urgencyPhrases.any (fun ph => containsSub text ph),
    (mkRat 3 10), "High-pressure urgency tactics detected")]

/-- Run the rule blocks over the `(score, rules)` accumulator. -/
def runRules (blocks : List (Bool × Score × String)) : Score × List String :=
  blocks.foldl (fun p b => applyRule b.1 b.2.1 b.2.2 p) (0, [])

/-- `performRuleChecks(campaign)` of `server/src/ruleEngine.ts`. -/
def performRuleChecks (campaign : Campaign) : RuleResult :=
  let text := lowerStr (campaign.title ++ "\n" ++ campaign.description)
  let imageOcrText :=
    String.intercalate " " (campaign.images.map (fun img => img.ocrText.getD ""))
  let p := runRules (ruleBlocks campaign text imageOcrText)
  ⟨p.1, p.2⟩

/-! ## URL safety checks (`server/src/ruleEngine.ts`, `checkUrlSafety`) -/

/-- One element of the `findings` array of `checkUrlSafety`. -/
structure UrlFinding where
  url : String
  risk : Score
  reason : String
deriving DecidableEq, Repr

/-- `shorteners` of `checkUrlSafety`. -/
def shorteners : List String :=
  ["bit.ly", "tinyurl.com", "t.co", "goo.gl", "ow.ly"]

/-- `suspiciousTlds` of `checkUrlSafety`. -/
def suspiciousTlds : List String :=
  [".tk", ".ml", ".ga", ".cf", ".click", ".download"]

/-- The findings produced for one URL by the loop body of `checkUrlSafety`.
`parseHost` is the WHATWG URL parser (an external platform API): `some h`
is `new URL(url).hostname`, `none` models the `TypeError` of a malformed
URL, caught by the surrounding `try`/`catch`. -/
def urlFindingsFor (parseHost : String → Option String) (url : String) :
    List UrlFinding :=
  match parseHost url with
  | none => [⟨url, (mkRat 3 10), "Malformed URL"⟩]
  | some host =>
    (if shorteners.any (fun sh => containsSub host sh) then
      [⟨url, (mkRat 4 10), "URL shortener detected - potential redirect hiding"⟩] else [])
    ++ (if suspiciousTlds.any (fun tld => jsEndsWith host tld) then
      [⟨url, (mkRat 5 10), "Suspicious top-level domain"⟩] else [])
    ++ (if ipPrefixTest host then
      [⟨url, (mkRat 6 10), "Direct IP address instead of domain name"⟩] else [])

/-- `checkUrlSafety(urls)` of `server/src/ruleEngine.ts` (its `await` is
inessential: the body performs no asynchronous work). -/
def checkUrlSafety (parseHost : String → Option String) (urls : List String) :
    List UrlFinding :=
  urls.flatMap (urlFindingsFor parseHost)

/-! ## Image moderation (`server/src/imageModeration.ts`) -/

/-- One uploaded image as seen by the pipeline, with its collaborator
outcomes oraclized: `size` is `buffer.length`; `ocrResult` is what
`extractTextFromImage` returns for this buffer (already trimmed, and `""`
when the OCR engine fails — its contract); `analysisFails` models the
`catch` branch of `moderateImage` (an unexpected throw inside its body). -/
structure UploadedImage where
  mime : String
  size : Nat
  ocrResult : String
  analysisFails : Bool
deriving DecidableEq, Repr

/-- `allowedTypes` of `moderateImage`. -/
def allowedImageTypes : List String := ["image/jpeg", "image/png", "image/webp"]

/-- `moderateImage(image)` of `server/src/imageModeration.ts`, returning
the `score` and `labels` fields (its `ocrText` field is always absent or
`undefined` and is overwritten by `analyzeImage`). `failure = true` selects
the `catch` branch. -/
def moderateImage (failure : Bool) (mime : String) (size : Nat) :
    Score × List String :=
  if failure then ((mkRat 1 10), ["moderation_error"])
  else if !(allowedImageTypes.contains mime) then ((mkRat 3 10), ["unsupported_format"])
  else if decide (size > 10 * 1024 * 1024) then (max 0 (mkRat 2 10), ["large_file_size"])
  else (0, [])

/-- The `riskyPatterns` alternations of `analyzeImage`, each `/i` regex
modelled over the lower-cased OCR text. -/
def riskyOcrTest (s : String) : Bool :=
  let t := lowerStr s
  (dotStarMatch t "upi" "id" || containsSub t "paytm" || containsSub t "gpay"
      || containsSub t "phonepe")
    || (dotStarMatch t "account" "number" || containsSub t "ifsc"
      || containsSub t "bank")
    || (containsSub t "bitcoin" || containsSub t "btc" || containsSub t "crypto"
      || containsSub t "wallet")
    || (containsSub t "whatsapp" || containsSub t "telegram")
    || (dotStarMatch t "guaranteed" "return" || dotStarMatch t "double" "money")

/-- Result of `analyzeImage` (an `ImageModerationResult` whose `ocrText`
has been filled in). -/
structure AnalyzedImage where
  score : Score
  labels : List String
  ocrText : String
deriving DecidableEq, Repr

/-- `analyzeImage(image)` of `server/src/imageModeration.ts`:
`moderateImage`, then OCR, then the risky-text rescoring guarded by the
truthiness of the extracted text. -/
def analyzeImage (img : UploadedImage) : AnalyzedImage :=
  let m := moderateImage img.analysisFails img.mime img.size
  if img.ocrResult != "" && riskyOcrTest img.ocrResult then
    ⟨max m.1 (mkRat 7 10), m.2 ++ ["risky_text_in_image"], img.ocrResult⟩
  else
    ⟨m.1, m.2, img.ocrResult⟩

/-- `analyzeImages(images)`: sequential map over the batch. -/
def analyzeImages (imgs : List UploadedImage) : List AnalyzedImage :=
  imgs.map analyzeImage

/-! ## LLM moderation (`server/src/llmModeration.ts`) -/

/-- A JSON value in a score position of the collaborator's response:
a finite number, `NaN` (`typeof` number but `isNaN`), or any non-number. -/
inductive JVal where
  | num (q : ℚ)
  | nan
  | nonNumber
deriving DecidableEq, Repr

/-- A highlighted span (`{field, text}`) of the classifier response. -/
structure Span where
  field : String
  text : String
deriving DecidableEq, Repr

/-- The parsed JSON of a collaborator response that reached the
post-processing code: a `scores` object (its entries in order), a
`decision` value, and the three optional list fields (their `p || []`
defaulting is `Option.getD`). A response with no `scores` object makes
`Object.entries(result.scores)` throw, which the `catch` turns into the
failure fallback, so `scores` is always present here. -/
structure RawLLMResponse where
  scores : List (String × JVal)
  decision : String
  rationale : Option (List String)
  requiredEdits : Option (List String)
  highlightedSpans : Option (List Span)
deriving DecidableEq, Repr

/-- Outcome of the external classifier call, oraclized:
`notConfigured` — no API key, the deterministic mock is used;
`failure` — the call threw, timed out, returned empty content, or returned
unparsable/score-less JSON (all paths landing in the `catch`);
`success raw` — a parsed JSON object reached the post-processing. -/
inductive LLMCall where
  | notConfigured
  | failure
  | success (raw : RawLLMResponse)
deriving DecidableEq, Repr

/-- The value returned by `performLLMModeration` after defensive
post-processing (all scores are numbers, all list fields present). -/
structure LLMResult where
  scores : List (String × Score)
  decision : String
  rationale : List String
  requiredEdits : List String
  highlightedSpans : List Span
deriving DecidableEq, Repr

/-- The score-validation loop body: non-numbers and `NaN` become `0`,
numbers are clamped into `[0, 1]` by `Math.max(0, Math.min(1, value))`. -/
def clampScore : JVal → Score
  | .num q => max 0 (min 1 q)
  | .nan => 0
  | .nonNumber => 0

/-- `['APPROVE', 'HOLD', 'REJECT']`. -/
def validDecisions : List String := ["APPROVE", "HOLD", "REJECT"]

/-- The decision fallback `maxScore < (mkRat 3 10) ? 'APPROVE' : maxScore < (mkRat 6 10) ?
'HOLD' : 'REJECT'` (shared with the mock). -/
def decisionFromMax (m : Score) : String :=
  if m < (mkRat 3 10) then "APPROVE" else if m < (mkRat 6 10) then "HOLD" else "REJECT"

/-- `Math.max(...)` over a list of scores. `Math.max()` of an empty spread
is `-Infinity`, below every threshold compared against; `-1` is an exact
stand-in with the same comparisons (all clamped entries are `≥ 0`). -/
def maxScoresOrNegInf (l : List Score) : Score := l.foldl max (-1)

/-- The fixed all-zero score object used by the failure fallback (and by
the mock before its keyword checks). -/
def zeroScores : List (String × Score) :=
  [("SCAM_FINANCIAL", 0), ("IMPERSONATION", 0), ("MEDICAL_CLAIMS", 0),
   ("PAYMENT_BYPASS", 0), ("VIOLENT_ADULT_HATE", 0), ("SENSITIVE_DOCS", 0),
   ("LOW_QUALITY_SPAM", 0)]

/-- Update one category in a score object (`scores.X = v`; the key is
always one of the seven declared keys, so insertion order is unchanged). -/
def setScore (k : String) (v : Score) (l : List (String × Score)) :
    List (String × Score) :=
  l.map (fun p => if p.1 = k then (p.1, v) else p)

/-- `getMockLLMResponse(campaign, signals)` of `server/src/llmModeration.ts`
(the `signals` argument is unused by its body). -/
def getMockLLMResponse (campaign : Campaign) : LLMResult :=
  let text := lowerStr (campaign.title ++ " " ++ campaign.description)
  let s0 := zeroScores
  let fin := containsSub text "guaranteed" || containsSub text "double your money"
    || containsSub text "investment"
  let s1 := if fin then setScore "SCAM_FINANCIAL" (mkRat 8 10) s0 else s0
  let r1 : List String :=
    if fin then ["Contains financial scam language (guaranteed returns)"] else []
  let e1 : List String :=
    if fin then ["Remove promises of guaranteed returns or investment opportunities"]
    else []
  let h1 : List Span := if fin then [⟨"description", "guaranteed"⟩] else []
  let pay := containsSub text "upi" || containsSub text "send money to"
    || containsSub text "paytm"
  let s2 := if pay then setScore "PAYMENT_BYPASS" (mkRat 9 10) s1 else s1
  let r2 := if pay then
    r1 ++ ["Contains direct payment instructions bypassing platform"] else r1
  let e2 := if pay then
    e1 ++ ["Remove direct payment instructions - use platform payment system only"]
    else e1
  let med := (containsSub text "surgery" || containsSub text "medical"
      || containsSub text "treatment")
    && (!(containsSub text "hospital") && !(containsSub text "doctor"))
  let s3 := if med then setScore "MEDICAL_CLAIMS" (mkRat 5 10) s2 else s2
  let r3 := if med then
    r2 ++ ["Medical fundraising without proper verification documents"] else r2
  let e3 := if med then
    e2 ++ ["Provide hospital documents or doctor verification for medical campaigns"]
    else e2
  let lowq := decide (campaign.description.length < 50)
    || decide ((splitOnChar ' ' text).length < 20)
  let s4 := if lowq then setScore "LOW_QUALITY_SPAM" (mkRat 4 10) s3 else s3
  let r4 := if lowq then
    r3 ++ ["Content appears to be low quality or too brief"] else r3
  let e4 := if lowq then
    e3 ++ ["Provide more detailed description of your campaign"] else e3
  let maxScore := maxScoresOrNegInf (s4.map Prod.snd)
  ⟨s4, decisionFromMax maxScore, r4, e4, h1⟩

/-- The failure fallback object of the `catch` branch of
`performLLMModeration` (its extra `error` field is dropped: nothing in the
pipeline reads it). -/
def llmFailureFallback : LLMResult :=
  ⟨zeroScores, "HOLD", ["LLM analysis failed - manual review required"], [], []⟩

/-- `performLLMModeration(campaign, signals)` of
`server/src/llmModeration.ts` as a function of the oraclized collaborator
outcome. The `signals` argument is only forwarded to the external
collaborator (whose response is the oracle) and ignored by the mock, so it
does not appear. -/
def performLLMModeration (campaign : Campaign) : LLMCall → LLMResult
  | .notConfigured => getMockLLMResponse campaign
  | .failure => llmFailureFallback
  | .success raw =>
    let scores := raw.scores.map (fun p => (p.1, clampScore p.2))
    let decision :=
      if validDecisions.contains raw.decision then raw.decision
      else decisionFromMax (maxScoresOrNegInf (scores.map Prod.snd))
    ⟨scores, decision, raw.rationale.getD [], raw.requiredEdits.getD [],
      raw.highlightedSpans.getD []⟩

/-! ## The moderation pipeline (`server/src/index.ts`, `POST /api/moderate`) -/

/-- The three moderation decisions. -/
inductive Decision where
  | APPROVE
  | HOLD
  | REJECT
deriving DecidableEq, Repr

/-- Strictness of a decision: `APPROVE < HOLD < REJECT`. -/
def Decision.strictness : Decision → Nat
  | .APPROVE => 0
  | .HOLD => 1
  | .REJECT => 2

/-- One element of the `imageResults` array of the handler
(`{imageId, ...analysisResult}`). -/
structure ImageResult where
  imageId : String
  score : Score
  labels : List String
  ocrText : String
deriving DecidableEq, Repr

/-- One element of the verdict's `imageFindings` projection. -/
structure ImageFinding where
  imageId : String
  score : Score
  labels : List String
deriving DecidableEq, Repr

/-- The `moderationResult` JSON assembled by the handler. -/
structure Verdict where
  decision : Decision
  risk : Score
  scores : List (String × Score)
  rationale : List String
  requiredEdits : List String
  highlightedSpans : List Span
  ruleReasons : List String
  imageFindings : List ImageFinding
  urlFindings : List UrlFinding
deriving DecidableEq, Repr

/-- Status of a review-queue item. -/
inductive QStatus where
  | PENDING
  | REVIEWED
deriving DecidableEq, Repr

/-- One entry of the in-memory `moderationQueue` array. -/
structure QueueItem where
  id : String
  campaignId : String
  campaign : Campaign
  moderationResult : Verdict
  status : QStatus
  createdAt : String
  reviewedBy : Option String
  reviewedAt : Option String
  reviewNotes : Option String
deriving DecidableEq, Repr

/-- Steps 2 of the handler: `Math.max(0, ...urlFindings.map(f => f.risk))`. -/
def urlRiskOf (findings : List UrlFinding) : Score :=
  (findings.map (fun f => f.risk)).foldl max 0

/-- Step 3 of the handler: `imageResults` with `imageId = img_<index>`. -/
def imageResultsOf (files : List UploadedImage) : List ImageResult :=
  (analyzeImages files).enum.map
    (fun p => ⟨"img_" ++ toString p.1, p.2.score, p.2.labels, p.2.ocrText⟩)

/-- `imageResults.reduce((max, r) => Math.max(max, r.score), 0)`. -/
def imageRiskOf (results : List ImageResult) : Score :=
  results.foldl (fun m r => max m r.score) 0

/-- Step 6 of the handler: `Math.max(ruleScore, urlRisk, imageRisk,
...Object.values(llmResult.scores).map(...))` (the `typeof` guard is the
identity here: post-processed scores are all numbers). -/
def riskOf (ruleScore urlRisk imageRisk : Score)
    (llmScores : List (String × Score)) : Score :=
  (llmScores.map Prod.snd).foldl max (max (max ruleScore urlRisk) imageRisk)

/-- The classifier's contribution to the fused risk: the maximum of the
category scores in the verdict's mapping (0 when the mapping is empty). -/
def classifierMaxScore (scores : List (String × Score)) : Score :=
  (scores.map Prod.snd).foldl max 0

/-- Step 7, baseline: `risk < autoApprove ? APPROVE : risk < manualReview ?
HOLD : REJECT`. -/
def baselineDecision (autoApprove manualReview risk : Score) : Decision :=
  if risk < autoApprove then .APPROVE
  else if risk < manualReview then .HOLD
  else .REJECT

/-- Step 7, LLM override: the two trailing `if` statements of the handler. -/
def applyLLMOverride (baseline : Decision) (llmDecision : String) : Decision :=
  let d := if llmDecision = "REJECT" then .REJECT else baseline
  if llmDecision = "HOLD" && d = Decision.APPROVE then .HOLD else d

/-- `campaign.id || 'new_campaign'`: JS `||` also replaces the empty
string (falsy). -/
def campaignIdOf (campaign : Campaign) : String :=
  match campaign.id with
  | some s => if s = "" then "new_campaign" else s
  | none => "new_campaign"

/-- The complete `POST /api/moderate` handler body (steps 1–7 and the
enqueue step) as a pure function of the validated campaign, the uploaded
files, the collaborator oracles, the two threshold environment knobs
(defaults `(mkRat 3 10)` and `(mkRat 6 10)`), and the id/timestamp oracles (`Date.now`,
`Math.random`, `new Date().toISOString()`). Returns the verdict and the
list of items pushed onto `moderationQueue` (empty or a singleton). -/
def moderateHandler (campaign : Campaign) (files : List UploadedImage)
    (parseHost : String → Option String) (llmCall : LLMCall)
    (autoApproveThreshold manualReviewThreshold : Score)
    (freshId now : String) : Verdict × List QueueItem :=
  let ruleResults := performRuleChecks campaign
  let urlFindings := checkUrlSafety parseHost campaign.links
  let urlRisk := urlRiskOf urlFindings
  let imageResults := imageResultsOf files
  let imageRisk := imageRiskOf imageResults
  let llmResult := performLLMModeration campaign llmCall
  let risk := riskOf ruleResults.score urlRisk imageRisk llmResult.scores
  let baseline := baselineDecision autoApproveThreshold manualReviewThreshold risk
  let decision := applyLLMOverride baseline llmResult.decision
  let verdict : Verdict :=
    ⟨decision, risk, llmResult.scores,
      ruleResults.rules ++ llmResult.rationale
        ++ urlFindings.map (fun f => "URL risk: " ++ f.reason)
        ++ (imageResults.filter (fun r => decide (0 < r.labels.length))).map
          (fun r => "Image: " ++ String.intercalate ", " r.labels),
      llmResult.requiredEdits, llmResult.highlightedSpans,
      ruleResults.rules,
      imageResults.map (fun r => ⟨r.imageId, r.score, r.labels⟩),
      urlFindings⟩
  let queued : List QueueItem :=
    if decision = Decision.HOLD then
      [⟨freshId, campaignIdOf campaign, campaign, verdict, .PENDING, now,
        none, none, none⟩]
    else []
  (verdict, queued)

/-! ## The review endpoint (`server/src/index.ts`,
`POST /api/moderation-queue/:id/review`) -/

/-- The two error responses of the review handler. -/
inductive ReviewError where
  | notFound
  | invalidDecision
deriving DecidableEq, Repr

/-- Replace the first element satisfying `p` (the handler mutates the
single object returned by `Array.prototype.find`). -/
def updateFirst (p : QueueItem → Bool) (f : QueueItem → QueueItem) :
    List QueueItem → List QueueItem
  | [] => []
  | x :: xs => if p x then f x :: xs else x :: updateFirst p f xs

/-- The mutation applied to the found item by the review handler. -/
def applyReview (decision : String) (notes reviewerId : Option String)
    (now : String) (item : QueueItem) : QueueItem :=
  { item with
    status := .REVIEWED
    reviewedBy := reviewerId
    reviewedAt := some now
    reviewNotes := notes
    moderationResult :=
      { item.moderationResult with
        decision := if decision = "APPROVE" then .APPROVE else .REJECT } }

/-- The `POST /api/moderation-queue/:id/review` handler: find by id (404
when absent), validate the decision (400 when not APPROVE/REJECT), then
mutate the found item in place. Returns the new queue state and the
updated item. -/
def reviewHandler (queue : List QueueItem) (id : String) (decision : String)
    (notes reviewerId : Option String) (now : String) :
    Except ReviewError (List QueueItem × QueueItem) :=
  match queue.find? (fun i => i.id = id) with
  | none => .error .notFound
  | some item =>
    if decision = "APPROVE" || decision = "REJECT" then
      .ok (updateFirst (fun i => i.id = id)
            (applyReview decision notes reviewerId now) queue,
          applyReview decision notes reviewerId now item)
    else .error .invalidDecision

/-! ## Concrete fixtures for witnesses and counterexamples -/

/-- A benign verified creator. -/
def sampleCreator : Creator := ⟨"u", 100, 0, true, true, "u1", none⟩

/-- A campaign whose description carries a UPI-style payment-bypass
pattern. -/
def upiCampaign : Campaign :=
  ⟨none, "Help", "upi 12345", 5, "community", [], [], sampleCreator⟩

/-- A campaign tripping only the medical-claims heuristics (keyword
`surgery`, no verification language): mock classifier scores it (mkRat 5 10) and
the run ends in HOLD. -/
def medCampaign : Campaign :=
  ⟨some "camp7", "Help", "surgery needed for my father", 5, "health", [],
    [], sampleCreator⟩

/-- A collaborator response carrying a single out-of-range category score
of 1.5 and omitting the other six categories. -/
def overLLMRaw : RawLLMResponse :=
  ⟨[("SCAM_FINANCIAL", JVal.num (mkRat 3 2))], "HOLD", none, none, none⟩

/-- An oracle recording what the WHATWG parser actually does on
`http://bit.ly.tk/x`: it parses, with hostname `bit.ly.tk` — which both
contains the shortener `bit.ly` and ends with the suspicious TLD `.tk`. -/
def tkParseHost : String → Option String :=
  fun u => if u = "http://bit.ly.tk/x" then some "bit.ly.tk" else none

/-- A parse oracle for a clean URL. -/
def cleanParseHost : String → Option String :=
  fun u => if u = "https://example.com" then some "example.com" else none

/-- The review queue after the medical campaign's HOLD run enqueued its
item (a reachable state: one PENDING item with id `mod_1`). -/
def medQueue : List QueueItem :=
  (moderateHandler medCampaign [] (fun _ => none) LLMCall.notConfigured
    (mkRat 3 10) (mkRat 6 10) "mod_1" "t0").2

/-- The first (legitimate) review of that item. -/
def medReview1 : Except ReviewError (List QueueItem × QueueItem) :=
  reviewHandler medQueue "mod_1" "REJECT" (some "spam") (some "rev1") "t1"

/-- The queue after the first review (the item is REVIEWED). -/
def medQueue1 : List QueueItem :=
  match medReview1 with
  | .ok p => p.1
  | .error _ => []

/-- A fallback item (never reached: `medReview1` succeeds). -/
def dummyItem : QueueItem :=
  ⟨"", "", medCampaign,
    (moderateHandler medCampaign [] (fun _ => none) LLMCall.notConfigured
      (mkRat 3 10) (mkRat 6 10) "mod_1" "t0").1,
    QStatus.PENDING, "", none, none, none⟩

/-- The item as returned by the first review. -/
def medItem1 : QueueItem :=
  match medReview1 with
  | .ok p => p.2
  | .error _ => dummyItem

/-! ## General lemmas -/

/-- The seed of a running maximum never exceeds the result. -/
theorem le_foldl_max (l : List Score) : ∀ a : Score, a ≤ l.foldl max a := by
  induction l with
  | nil => intro a; simp
  | cons x xs ih =>
    intro a
    simpa using le_trans (le_max_left a x) (ih (max a x))

/-- A running maximum over a larger seed decomposes through the smaller
seed. -/
theorem foldl_max_shift (l : List Score) :
    ∀ a b : Score, b ≤ a → l.foldl max a = max a (l.foldl max b) := by
  induction l with
  | nil => intro a b h; simp [max_eq_left h]
  | cons x xs ih =>
    intro a b h
    have hx : x ≤ xs.foldl max (max b x) :=
      le_trans (le_max_right b x) (le_foldl_max xs (max b x))
    calc (x :: xs).foldl max a = xs.foldl max (max a x) := rfl
      _ = max (max a x) (xs.foldl max (max b x)) :=
        ih (max a x) (max b x) (max_le_max h le_rfl)
      _ = max a (max x (xs.foldl max (max b x))) := max_assoc a x _
      _ = max a (xs.foldl max (max b x)) := by rw [max_eq_right hx]
      _ = max a ((x :: xs).foldl max b) := rfl

/-- A running maximum is its seed or one of the elements. -/
theorem foldl_max_or_mem (l : List Score) :
    ∀ a : Score, l.foldl max a = a ∨ l.foldl max a ∈ l := by
  induction l with
  | nil => intro a; simp
  | cons x xs ih =>
    intro a
    rcases ih (max a x) with h | h
    · rcases max_cases a x with ⟨he, _⟩ | ⟨he, _⟩
      · left; simpa [List.foldl, he] using h
      · right; simp [List.foldl]; left; rw [h, he]
    · right; simp [List.foldl]; right; exact h

/-- Every element is bounded by the running maximum. -/
theorem le_foldl_max_of_mem (l : List Score) :
    ∀ (a x : Score), x ∈ l → x ≤ l.foldl max a := by
  induction l with
  | nil => intro a x hx; simp at hx
  | cons y ys ih =>
    intro a x hx
    rcases List.mem_cons.mp hx with h | h
    · subst h
      exact le_trans (le_max_right a x) (le_foldl_max ys (max a x))
    · exact ih (max a y) x h

/-- A rule block never lowers the running score. -/
theorem applyRule_fst_le (c : Bool) (v : Score) (m : String)
    (p : Score × List String) : p.1 ≤ (applyRule c v m p).1 := by
  unfold applyRule
  by_cases h : c = true <;> simp [h]

/-- Running a chain of rule blocks never lowers the score. -/
theorem runRules_foldl_fst_le (blocks : List (Bool × Score × String)) :
    ∀ p : Score × List String,
      p.1 ≤ (blocks.foldl (fun q b => applyRule b.1 b.2.1 b.2.2 q) p).1 := by
  induction blocks with
  | nil => intro p; simp
  | cons b bs ih =>
    intro p
    exact le_trans (applyRule_fst_le b.1 b.2.1 b.2.2 p)
      (ih (applyRule b.1 b.2.1 b.2.2 p))

/-- A fired block's value bounds the final score from below. -/
theorem runRules_foldl_fst_ge (blocks : List (Bool × Score × String))
    (b : Bool × Score × String) (hb : b ∈ blocks) (hc : b.1 = true) :
    ∀ p : Score × List String,
      b.2.1 ≤ (blocks.foldl (fun q c => applyRule c.1 c.2.1 c.2.2 q) p).1 := by
  induction blocks with
  | nil => simp at hb
  | cons c cs ih =>
    intro p
    rcases List.mem_cons.mp hb with h | h
    · subst h
      refine le_trans ?_ (runRules_foldl_fst_le cs (applyRule b.1 b.2.1 b.2.2 p))
      unfold applyRule
      simp [hc]
    · exact ih h (applyRule c.1 c.2.1 c.2.2 p)

/-- The rule-engine score is never negative. -/
theorem performRuleChecks_score_nonneg (campaign : Campaign) :
    0 ≤ (performRuleChecks campaign).score := by
  unfold performRuleChecks runRules
  exact runRules_foldl_fst_le _ (0, [])

/-- `String.append` concatenates the character lists. -/
theorem string_data_append (a b : String) : (a ++ b).data = a.data ++ b.data := rfl

/-- Lower-casing distributes over concatenation (character lists). -/
theorem lowerStr_append_data (a b : String) :
    (lowerStr (a ++ b)).data = (lowerStr a).data ++ (lowerStr b).data := by
  simp [lowerStr, string_data_append]

/-- An infix of the right part is an infix of a concatenation. -/
theorem infixAt_append_left (n : List Char) (l₁ : List Char) :
    ∀ l₂ : List Char, infixAt n l₂ = true → infixAt n (l₁ ++ l₂) = true := by
  induction l₁ with
  | nil => intro l₂ h; simpa using h
  | cons c cs ih =>
    intro l₂ h
    have := ih l₂ h
    simp only [List.cons_append, infixAt, Bool.or_eq_true]
    right
    exact this

/-- A phone-pattern match in the right part survives prefixing. -/
theorem phonePatternAux_append_left (l₁ : List Char) :
    ∀ l₂ : List Char, phonePatternAux l₂ = true →
      phonePatternAux (l₁ ++ l₂) = true := by
  induction l₁ with
  | nil => intro l₂ h; simpa using h
  | cons c cs ih =>
    intro l₂ h
    have := ih l₂ h
    simp only [List.cons_append, phonePatternAux, Bool.or_eq_true]
    right
    exact this

/-- A payment-bypass match inside the description is a match inside the
lower-cased `title\ndescription` the rule engine scans. -/
theorem paymentBypassCore_lift (title desc : String)
    (h : paymentBypassTest desc = true) :
    paymentBypassCore (lowerStr (title ++ "\n" ++ desc)) = true := by
  unfold paymentBypassTest at h
  unfold paymentBypassCore at h ⊢
  have hdata : (lowerStr (title ++ "\n" ++ desc)).data
      = (lowerStr (title ++ "\n")).data ++ (lowerStr desc).data :=
    lowerStr_append_data (title ++ "\n") desc
  simp only [Bool.or_eq_true, List.any_eq_true] at h ⊢
  rcases h with ⟨p, hp, hsub⟩ | h2
  · left
    refine ⟨p, hp, ?_⟩
    unfold containsSub at hsub ⊢
    rw [hdata]
    exact infixAt_append_left _ _ _ hsub
  · right
    unfold phonePattern at h2 ⊢
    rw [hdata]
    exact phonePatternAux_append_left _ _ h2

/-- The LLM override maps a REJECT baseline to REJECT. -/
theorem applyLLMOverride_of_reject (d : String) :
    applyLLMOverride Decision.REJECT d = Decision.REJECT := by
  unfold applyLLMOverride
  by_cases h1 : d = "REJECT" <;> by_cases h2 : d = "HOLD" <;> simp [h1, h2]

/-- The LLM override never loosens the baseline decision. -/
theorem applyLLMOverride_strictness_le (b : Decision) (d : String) :
    b.strictness ≤ (applyLLMOverride b d).strictness := by
  unfold applyLLMOverride
  by_cases h1 : d = "REJECT" <;> by_cases h2 : d = "HOLD" <;>
    cases b <;> simp [h1, h2, Decision.strictness]

/-- An LLM decision of `"REJECT"` forces the final decision. -/
theorem applyLLMOverride_llm_reject (b : Decision) :
    applyLLMOverride b "REJECT" = Decision.REJECT := by
  unfold applyLLMOverride
  cases b <;> simp

/-- An LLM decision of `"HOLD"` raises an APPROVE baseline. -/
theorem applyLLMOverride_llm_hold_approve :
    applyLLMOverride Decision.APPROVE "HOLD" = Decision.HOLD := by
  unfold applyLLMOverride
  simp

/-- An LLM decision of `"HOLD"` never lets APPROVE through. -/
theorem applyLLMOverride_llm_hold_ne_approve (b : Decision) :
    applyLLMOverride b "HOLD" ≠ Decision.APPROVE := by
  unfold applyLLMOverride
  cases b <;> simp

/-- A risk at or above the manual-review threshold gives a REJECT
baseline. -/
theorem baselineDecision_reject (a m risk : Score) (ha : a ≤ m) (hm : m ≤ risk) :
    baselineDecision a m risk = Decision.REJECT := by
  unfold baselineDecision
  rw [if_neg (not_lt.mpr (le_trans ha hm)), if_neg (not_lt.mpr hm)]

/-- `imageRiskOf` as a running maximum over the score projection. -/
theorem imageRiskOf_eq_foldl (results : List ImageResult) :
    imageRiskOf results = (results.map (fun r => r.score)).foldl max 0 :=
  (List.foldl_map _ _ _ _).symm

/-- The URL risk contribution is never negative. -/
theorem urlRiskOf_nonneg (findings : List UrlFinding) : 0 ≤ urlRiskOf findings :=
  le_foldl_max _ 0

/-- The image risk contribution is never negative. -/
theorem imageRiskOf_nonneg (results : List ImageResult) :
    0 ≤ imageRiskOf results := by
  rw [imageRiskOf_eq_foldl]
  exact le_foldl_max _ 0

/-- The fused risk decomposes into a nested binary maximum of the four
component scores, provided the first three are non-negative. -/
theorem riskOf_eq_max (r u i : Score) (scores : List (String × Score))
    (hr : 0 ≤ r) :
    riskOf r u i scores = max r (max u (max i (classifierMaxScore scores))) := by
  unfold riskOf classifierMaxScore
  have hseed : (0 : Score) ≤ max (max r u) i :=
    le_trans hr (le_trans (le_max_left r u) (le_max_left _ i))
  rw [foldl_max_shift _ _ 0 hseed, max_assoc, max_assoc]

/-- `updateFirst` preserves length. -/
theorem updateFirst_length (p : QueueItem → Bool) (f : QueueItem → QueueItem) :
    ∀ l : List QueueItem, (updateFirst p f l).length = l.length := by
  intro l
  induction l with
  | nil => rfl
  | cons x xs ih =>
    unfold updateFirst
    by_cases h : p x = true
    · rw [if_pos h]
      rfl
    · rw [if_neg h]
      simp [ih]

/-- Pairs of a list zipped with itself are diagonal. -/
theorem zip_self_eq : ∀ (l : List QueueItem), ∀ x ∈ l.zip l, x.1 = x.2 := by
  intro l
  induction l with
  | nil => intro x hx; simp at hx
  | cons y ys ih =>
    intro x hx
    rw [List.zip_cons_cons] at hx
    rcases List.mem_cons.mp hx with h1 | h2
    · rw [h1]
    · exact ih x h2

/-- Positionally, `updateFirst` leaves each element alone or applies `f`. -/
theorem updateFirst_zip (p : QueueItem → Bool) (f : QueueItem → QueueItem) :
    ∀ l : List QueueItem, ∀ x ∈ (updateFirst p f l).zip l,
      x.1 = x.2 ∨ x.1 = f x.2 := by
  intro l
  induction l with
  | nil => intro x hx; simp [updateFirst] at hx
  | cons y ys ih =>
    intro x hx
    unfold updateFirst at hx
    by_cases h : p y = true
    · rw [if_pos h, List.zip_cons_cons] at hx
      rcases List.mem_cons.mp hx with hx1 | hx2
      · right; rw [hx1]
      · left
        exact zip_self_eq ys x hx2
    · rw [if_neg h, List.zip_cons_cons] at hx
      rcases List.mem_cons.mp hx with hx1 | hx2
      · left; rw [hx1]
      · exact ih x hx2

/-! ## Claim theorems -/

/-- C1. For every campaign submission that completes moderation, the
verdict's risk equals the maximum of the four component scores — the rule
score, the URL risk, the image risk and the maximum classifier category
score — never their sum or average. -/
theorem C1_risk_is_component_max (campaign : Campaign)
    (files : List UploadedImage) (parseHost : String → Option String)
    (llmCall : LLMCall) (thA thM : Score) (freshId now : String) :
    (moderateHandler campaign files parseHost llmCall thA thM freshId now).1.risk
      = max (performRuleChecks campaign).score
          (max (urlRiskOf (checkUrlSafety parseHost campaign.links))
            (max (imageRiskOf (imageResultsOf files))
              (classifierMaxScore
                (performLLMModeration campaign llmCall).scores))) := by
  show riskOf (performRuleChecks campaign).score
      (urlRiskOf (checkUrlSafety parseHost campaign.links))
      (imageRiskOf (imageResultsOf files))
      (performLLMModeration campaign llmCall).scores = _
  exact riskOf_eq_max _ _ _ _ (performRuleChecks_score_nonneg campaign)

/-- C2. A campaign whose description contains a payment-bypass pattern has
rule score at least (mkRat 9 10), fused risk at least (mkRat 9 10), and final decision
REJECT under the default thresholds, regardless of every other signal. -/
theorem C2_payment_bypass_rejects (campaign : Campaign)
    (files : List UploadedImage) (parseHost : String → Option String)
    (llmCall : LLMCall) (freshId now : String)
    (h : paymentBypassTest campaign.description = true) :
    mkRat 9 10 ≤ (performRuleChecks campaign).score
    ∧ mkRat 9 10 ≤
        (moderateHandler campaign files parseHost llmCall (mkRat 3 10) (mkRat 6 10)
          freshId now).1.risk
    ∧ (moderateHandler campaign files parseHost llmCall (mkRat 3 10) (mkRat 6 10)
        freshId now).1.decision = Decision.REJECT := by
  have hcond : (paymentBypassCore
        (lowerStr (campaign.title ++ "\n" ++ campaign.description))
      || paymentBypassTest (String.intercalate " "
        (campaign.images.map (fun img => img.ocrText.getD "")))) = true := by
    rw [paymentBypassCore_lift _ _ h]
    simp
  have hscore : mkRat 9 10 ≤ (performRuleChecks campaign).score := by
    show mkRat 9 10 ≤ (runRules (ruleBlocks campaign
      (lowerStr (campaign.title ++ "\n" ++ campaign.description))
      (String.intercalate " "
        (campaign.images.map (fun img => img.ocrText.getD ""))))).1
    unfold runRules
    refine runRules_foldl_fst_ge _
      ((paymentBypassCore
          (lowerStr (campaign.title ++ "\n" ++ campaign.description))
        || paymentBypassTest (String.intercalate " "
          (campaign.images.map (fun img => img.ocrText.getD "")))),
       (mkRat 9 10), "Direct payment instructions found (bypassing platform fees)")
      ?_ hcond (0, [])
    unfold ruleBlocks
    exact List.mem_cons_of_mem _ (List.mem_cons_self _ _)
  have hrisk : mkRat 9 10 ≤ riskOf (performRuleChecks campaign).score
      (urlRiskOf (checkUrlSafety parseHost campaign.links))
      (imageRiskOf (imageResultsOf files))
      (performLLMModeration campaign llmCall).scores := by
    unfold riskOf
    refine le_trans hscore (le_trans ?_ (le_foldl_max _ _))
    exact le_trans (le_max_left _ _) (le_max_left _ _)
  refine ⟨hscore, hrisk, ?_⟩
  show applyLLMOverride
      (baselineDecision (mkRat 3 10) (mkRat 6 10) (riskOf (performRuleChecks campaign).score
        (urlRiskOf (checkUrlSafety parseHost campaign.links))
        (imageRiskOf (imageResultsOf files))
        (performLLMModeration campaign llmCall).scores))
      (performLLMModeration campaign llmCall).decision = Decision.REJECT
  rw [baselineDecision_reject _ _ _ (by norm_num)
    (le_trans (by norm_num : mkRat 6 10 ≤ (mkRat 9 10)) hrisk)]
  exact applyLLMOverride_of_reject _

/-- C7. The final decision is at least as strict as the baseline threshold
decision; a classifier REJECT forces REJECT; a classifier HOLD raises an
APPROVE baseline to HOLD. -/
theorem C7_override_only_stricter (campaign : Campaign)
    (files : List UploadedImage) (parseHost : String → Option String)
    (llmCall : LLMCall) (thA thM : Score) (freshId now : String) :
    (baselineDecision thA thM
        (moderateHandler campaign files parseHost llmCall thA thM freshId
          now).1.risk).strictness
      ≤ (moderateHandler campaign files parseHost llmCall thA thM freshId
          now).1.decision.strictness
    ∧ ((performLLMModeration campaign llmCall).decision = "REJECT" →
        (moderateHandler campaign files parseHost llmCall thA thM freshId
          now).1.decision = Decision.REJECT)
    ∧ ((performLLMModeration campaign llmCall).decision = "HOLD" →
        baselineDecision thA thM
          (moderateHandler campaign files parseHost llmCall thA thM freshId
            now).1.risk = Decision.APPROVE →
        (moderateHandler campaign files parseHost llmCall thA thM freshId
          now).1.decision = Decision.HOLD) := by
  show (baselineDecision thA thM (riskOf (performRuleChecks campaign).score
        (urlRiskOf (checkUrlSafety parseHost campaign.links))
        (imageRiskOf (imageResultsOf files))
        (performLLMModeration campaign llmCall).scores)).strictness
      ≤ (applyLLMOverride (baselineDecision thA thM (riskOf _ _ _ _))
          (performLLMModeration campaign llmCall).decision).strictness
    ∧ ((performLLMModeration campaign llmCall).decision = "REJECT" →
        applyLLMOverride (baselineDecision thA thM (riskOf _ _ _ _))
          (performLLMModeration campaign llmCall).decision = Decision.REJECT)
    ∧ ((performLLMModeration campaign llmCall).decision = "HOLD" →
        baselineDecision thA thM (riskOf _ _ _ _) = Decision.APPROVE →
        applyLLMOverride (baselineDecision thA thM (riskOf _ _ _ _))
          (performLLMModeration campaign llmCall).decision = Decision.HOLD)
  refine ⟨applyLLMOverride_strictness_le _ _, fun h => ?_, fun h hb => ?_⟩
  · rw [h]
    exact applyLLMOverride_llm_reject _
  · rw [h, hb]
    exact applyLLMOverride_llm_hold_approve

/-- C8. The verdict's rationale is exactly the concatenation, in fixed
order, of the rule findings, the classifier rationale, the formatted URL
findings, and the formatted non-empty image label sets. -/
theorem C8_rationale_concatenation (campaign : Campaign)
    (files : List UploadedImage) (parseHost : String → Option String)
    (llmCall : LLMCall) (thA thM : Score) (freshId now : String) :
    (moderateHandler campaign files parseHost llmCall thA thM freshId
        now).1.rationale
      = (performRuleChecks campaign).rules
        ++ (performLLMModeration campaign llmCall).rationale
        ++ (checkUrlSafety parseHost campaign.links).map
          (fun f => "URL risk: " ++ f.reason)
        ++ ((imageResultsOf files).filter
            (fun r => decide (0 < r.labels.length))).map
          (fun r => "Image: " ++ String.intercalate ", " r.labels) := rfl

/-- C9. A review-queue item is created (status PENDING, creation timestamp
set) exactly when the final decision is HOLD, and then exactly one. -/
theorem C9_enqueue_iff_hold (campaign : Campaign)
    (files : List UploadedImage) (parseHost : String → Option String)
    (llmCall : LLMCall) (thA thM : Score) (freshId now : String) :
    ((moderateHandler campaign files parseHost llmCall thA thM freshId
        now).1.decision = Decision.HOLD →
      (moderateHandler campaign files parseHost llmCall thA thM freshId
        now).2
        = [⟨freshId, campaignIdOf campaign, campaign,
            (moderateHandler campaign files parseHost llmCall thA thM freshId
              now).1, QStatus.PENDING, now, none, none, none⟩])
    ∧ ((moderateHandler campaign files parseHost llmCall thA thM freshId
        now).1.decision ≠ Decision.HOLD →
      (moderateHandler campaign files parseHost llmCall thA thM freshId
        now).2 = []) := by
  constructor
  · intro h
    simp only [moderateHandler] at h ⊢
    rw [if_pos h]
  · intro h
    simp only [moderateHandler] at h ⊢
    rw [if_neg h]

/-- C10. Per image: unsupported MIME gives score (mkRat 3 10) with label
`unsupported_format`; an oversized payload (over the 10MB ceiling) gives
score at least (mkRat 2 10) with label `large_file_size`; an analysis failure gives
score (mkRat 1 10) with label `moderation_error`; risky OCR text raises the final
score to at least (mkRat 7 10) and appends `risky_text_in_image`. -/
theorem C10_image_signal_extractor :
    (∀ (mime : String) (size : Nat), mime ∉ allowedImageTypes →
      moderateImage false mime size = ((mkRat 3 10), ["unsupported_format"]))
    ∧ (∀ (mime : String) (size : Nat), mime ∈ allowedImageTypes →
        10 * 1024 * 1024 < size →
        mkRat 2 10 ≤ (moderateImage false mime size).1
        ∧ "large_file_size" ∈ (moderateImage false mime size).2)
    ∧ (∀ (mime : String) (size : Nat),
        moderateImage true mime size = ((mkRat 1 10), ["moderation_error"]))
    ∧ (∀ img : UploadedImage, img.ocrResult ≠ "" →
        riskyOcrTest img.ocrResult = true →
        mkRat 7 10 ≤ (analyzeImage img).score
        ∧ "risky_text_in_image" ∈ (analyzeImage img).labels) := by
  refine ⟨fun mime size h => ?_, fun mime size h hs => ?_,
    fun mime size => rfl, fun img h1 h2 => ?_⟩
  · have hc : allowedImageTypes.contains mime = false := by simpa using h
    unfold moderateImage
    rw [hc]
    simp
  · have hc : allowedImageTypes.contains mime = true := by simpa using h
    unfold moderateImage
    rw [hc, decide_eq_true hs]
    exact ⟨le_max_right _ _, by simp⟩
  · have hne : (img.ocrResult != "") = true := by
      simpa using h1
    unfold analyzeImage
    rw [hne, h2, if_pos (by simp : (true && true) = true)]
    exact ⟨le_max_right _ _, by simp⟩

/-- Witness for C2 at a concrete campaign. -/
theorem C2_payment_bypass_rejects_witness :
    paymentBypassTest upiCampaign.description = true
    ∧ (moderateHandler upiCampaign [] (fun _ => none) LLMCall.failure (mkRat 3 10) (mkRat 6 10)
        "id1" "t1").1.decision = Decision.REJECT :=
  ⟨by decide,
   (C2_payment_bypass_rejects upiCampaign [] (fun _ => none) LLMCall.failure
     "id1" "t1" (by decide)).2.2⟩

/-- Witness for C7: a classifier REJECT forces REJECT, and a classifier
HOLD over an APPROVE baseline yields HOLD. -/
theorem C7_override_only_stricter_witness :
    ((performLLMModeration upiCampaign
        (LLMCall.success ⟨[], "REJECT", none, none, none⟩)).decision = "REJECT"
      ∧ (moderateHandler upiCampaign [] (fun _ => none)
          (LLMCall.success ⟨[], "REJECT", none, none, none⟩) (mkRat 3 10) (mkRat 6 10)
          "id1" "t1").1.decision = Decision.REJECT)
    ∧ ((performLLMModeration medCampaign LLMCall.failure).decision = "HOLD"
      ∧ baselineDecision 2 3 (moderateHandler medCampaign [] (fun _ => none)
          LLMCall.failure 2 3 "id1" "t1").1.risk = Decision.APPROVE
      ∧ (moderateHandler medCampaign [] (fun _ => none) LLMCall.failure 2 3
          "id1" "t1").1.decision = Decision.HOLD) :=
  ⟨⟨rfl,
    (C7_override_only_stricter upiCampaign [] (fun _ => none)
      (LLMCall.success ⟨[], "REJECT", none, none, none⟩) (mkRat 3 10) (mkRat 6 10)
      "id1" "t1").2.1 rfl⟩,
   ⟨rfl, rfl,
    (C7_override_only_stricter medCampaign [] (fun _ => none)
      LLMCall.failure 2 3 "id1" "t1").2.2 rfl rfl⟩⟩

/-- Witness for C9: a HOLD run enqueues exactly its one PENDING item, a
REJECT run enqueues nothing. -/
theorem C9_enqueue_iff_hold_witness :
    (moderateHandler medCampaign [] (fun _ => none) LLMCall.notConfigured
        (mkRat 3 10) (mkRat 6 10) "mod_1" "t0").1.decision = Decision.HOLD
    ∧ (moderateHandler medCampaign [] (fun _ => none) LLMCall.notConfigured
        (mkRat 3 10) (mkRat 6 10) "mod_1" "t0").2
      = [⟨"mod_1", campaignIdOf medCampaign, medCampaign,
          (moderateHandler medCampaign [] (fun _ => none)
            LLMCall.notConfigured (mkRat 3 10) (mkRat 6 10) "mod_1" "t0").1,
          QStatus.PENDING, "t0", none, none, none⟩]
    ∧ (moderateHandler upiCampaign [] (fun _ => none) LLMCall.failure (mkRat 3 10) (mkRat 6 10)
        "id1" "t1").2 = [] :=
  ⟨rfl,
   (C9_enqueue_iff_hold medCampaign [] (fun _ => none) LLMCall.notConfigured
     (mkRat 3 10) (mkRat 6 10) "mod_1" "t0").1 rfl,
   (C9_enqueue_iff_hold upiCampaign [] (fun _ => none) LLMCall.failure
     (mkRat 3 10) (mkRat 6 10) "id1" "t1").2 (by decide)⟩

/-- Witness for C10 at concrete images. -/
theorem C10_image_signal_extractor_witness :
    ("image/gif" ∉ allowedImageTypes
      ∧ moderateImage false "image/gif" 5 = ((mkRat 3 10), ["unsupported_format"]))
    ∧ ("image/png" ∈ allowedImageTypes ∧ 10 * 1024 * 1024 < 10485761
      ∧ mkRat 2 10 ≤ (moderateImage false "image/png" 10485761).1
      ∧ "large_file_size" ∈ (moderateImage false "image/png" 10485761).2)
    ∧ moderateImage true "image/png" 5 = ((mkRat 1 10), ["moderation_error"])
    ∧ (riskyOcrTest "send via WhatsApp" = true
      ∧ mkRat 7 10 ≤ (analyzeImage ⟨"image/png", 5, "send via WhatsApp", false⟩).score
      ∧ "risky_text_in_image"
          ∈ (analyzeImage ⟨"image/png", 5, "send via WhatsApp", false⟩).labels) :=
  ⟨⟨by decide, C10_image_signal_extractor.1 "image/gif" 5 (by decide)⟩,
   ⟨by decide, by norm_num,
    (C10_image_signal_extractor.2.1 "image/png" 10485761 (by decide)
      (by norm_num)).1,
    (C10_image_signal_extractor.2.1 "image/png" 10485761 (by decide)
      (by norm_num)).2⟩,
   C10_image_signal_extractor.2.2.1 "image/png" 5,
   ⟨by decide,
    (C10_image_signal_extractor.2.2.2 ⟨"image/png", 5, "send via WhatsApp", false⟩
      (by decide) (by decide)).1,
    (C10_image_signal_extractor.2.2.2 ⟨"image/png", 5, "send via WhatsApp", false⟩
      (by decide) (by decide)).2⟩⟩

/-- C4, counterexample. With the classifier failing, a campaign whose
description carries a UPI pattern still ends in final decision REJECT
(rule score 0.9 ≥ manual-review threshold 0.6), refuting "a
classifier-failure run never yields REJECT": the adapter itself returned
HOLD, yet the run rejected. -/
theorem C4_counterexample :
    (performLLMModeration upiCampaign LLMCall.failure).decision = "HOLD"
    ∧ (moderateHandler upiCampaign [] (fun _ => none) LLMCall.failure
        (mkRat 3 10) (mkRat 6 10) "id1" "t1").1.decision = Decision.REJECT :=
  ⟨rfl, rfl⟩

/-- C4, amended. On classifier failure the adapter returns all seven
category scores at 0, decision HOLD, and the failure rationale entry; the
moderation run then never ends in APPROVE (though it can still end in
REJECT on the strength of the other signals). -/
theorem C4_amended_classifier_failure (campaign : Campaign)
    (files : List UploadedImage) (parseHost : String → Option String)
    (thA thM : Score) (freshId now : String) :
    (performLLMModeration campaign LLMCall.failure).scores = zeroScores
    ∧ (performLLMModeration campaign LLMCall.failure).decision = "HOLD"
    ∧ (performLLMModeration campaign LLMCall.failure).rationale
        = ["LLM analysis failed - manual review required"]
    ∧ (moderateHandler campaign files parseHost LLMCall.failure thA thM
        freshId now).1.decision ≠ Decision.APPROVE := by
  refine ⟨rfl, rfl, rfl, ?_⟩
  show applyLLMOverride
      (baselineDecision thA thM (riskOf (performRuleChecks campaign).score
        (urlRiskOf (checkUrlSafety parseHost campaign.links))
        (imageRiskOf (imageResultsOf files))
        (performLLMModeration campaign LLMCall.failure).scores))
      (performLLMModeration campaign LLMCall.failure).decision
      ≠ Decision.APPROVE
  exact applyLLMOverride_llm_hold_ne_approve _

/-- Witness for the amended C4 at concrete inputs. -/
theorem C4_amended_classifier_failure_witness :
    (performLLMModeration medCampaign LLMCall.failure).decision = "HOLD"
    ∧ (moderateHandler medCampaign [] (fun _ => none) LLMCall.failure
        (mkRat 3 10) (mkRat 6 10) "id1" "t1").1.decision ≠ Decision.APPROVE :=
  ⟨(C4_amended_classifier_failure medCampaign [] (fun _ => none)
      (mkRat 3 10) (mkRat 6 10) "id1" "t1").2.1,
   (C4_amended_classifier_failure medCampaign [] (fun _ => none)
      (mkRat 3 10) (mkRat 6 10) "id1" "t1").2.2.2⟩

/-- C5, counterexample. The post-processing clamps the out-of-range score
1.5 to 1 — not to 0 as claimed — and the six categories missing from the
collaborator response are absent from the returned mapping — dropped, not
kept at 0 as claimed. -/
theorem C5_counterexample :
    (performLLMModeration upiCampaign (LLMCall.success overLLMRaw)).scores
      = [("SCAM_FINANCIAL", 1)]
    ∧ ((performLLMModeration upiCampaign
        (LLMCall.success overLLMRaw)).scores.map Prod.fst)
      = ["SCAM_FINANCIAL"] :=
  ⟨rfl, rfl⟩

/-- C5, amended. The post-processing maps each category entry *present*
in the collaborator response through `Math.max(0, Math.min(1, v))`:
non-numeric and `NaN` values become 0, numbers are clamped into `[0, 1]`
(values above 1 become 1, not 0), every present entry is kept, and no
missing category is added. -/
theorem C5_amended_clamping (c : Campaign) (raw : RawLLMResponse) :
    (performLLMModeration c (LLMCall.success raw)).scores
      = raw.scores.map (fun p => (p.1, clampScore p.2))
    ∧ (∀ p ∈ (performLLMModeration c (LLMCall.success raw)).scores,
        0 ≤ p.2 ∧ p.2 ≤ 1)
    ∧ clampScore JVal.nan = 0
    ∧ clampScore JVal.nonNumber = 0
    ∧ (∀ q : ℚ, 1 < q → clampScore (JVal.num q) = 1)
    ∧ (∀ q : ℚ, q < 0 → clampScore (JVal.num q) = 0)
    ∧ (∀ q : ℚ, 0 ≤ q → q ≤ 1 → clampScore (JVal.num q) = q) := by
  refine ⟨rfl, ?_, rfl, rfl, ?_, ?_, ?_⟩
  · intro p hp
    rcases List.mem_map.mp hp with ⟨q0, _, rfl⟩
    cases q0.2 with
    | num q =>
      constructor
      · exact le_max_left 0 _
      · exact max_le zero_le_one (min_le_left 1 q)
    | nan => exact ⟨le_refl 0, zero_le_one⟩
    | nonNumber => exact ⟨le_refl 0, zero_le_one⟩
  · intro q hq
    show max (0 : ℚ) (min 1 q) = 1
    rw [min_eq_left (le_of_lt hq), max_eq_right zero_le_one]
  · intro q hq
    show max (0 : ℚ) (min 1 q) = 0
    rw [min_eq_right (le_of_lt (lt_of_lt_of_le hq zero_le_one)),
      max_eq_left (le_of_lt hq)]
  · intro q h0 h1
    show max (0 : ℚ) (min 1 q) = q
    rw [min_eq_right h1, max_eq_right h0]

/-- Witness for the amended C5 at concrete scores. -/
theorem C5_amended_clamping_witness :
    ((0 : ℚ) ≤ (1 : ℚ) ∧ (1 : ℚ) ≤ 1)
    ∧ clampScore (JVal.num 2) = 1
    ∧ clampScore (JVal.num (-1)) = 0
    ∧ clampScore (JVal.num (mkRat 1 2)) = mkRat 1 2 :=
  ⟨(C5_amended_clamping upiCampaign overLLMRaw).2.1 ("SCAM_FINANCIAL", 1)
      (by decide),
   (C5_amended_clamping upiCampaign overLLMRaw).2.2.2.2.1 2 (by decide),
   (C5_amended_clamping upiCampaign overLLMRaw).2.2.2.2.2.1 (-1) (by decide),
   (C5_amended_clamping upiCampaign overLLMRaw).2.2.2.2.2.2 (mkRat 1 2)
     (by decide) (by decide)⟩

/-- C6, counterexample. One flagged URL can produce two findings (its
hostname matches both the shortener and the suspicious-TLD categories),
refuting "exactly one entry per malformed-or-flagged URL" and "a URL
matching at most one category". -/
theorem C6_counterexample :
    checkUrlSafety tkParseHost ["http://bit.ly.tk/x"]
      = [⟨"http://bit.ly.tk/x", mkRat 4 10,
          "URL shortener detected - potential redirect hiding"⟩,
         ⟨"http://bit.ly.tk/x", mkRat 5 10, "Suspicious top-level domain"⟩]
    ∧ (checkUrlSafety tkParseHost ["http://bit.ly.tk/x"]).length = 2 :=
  ⟨rfl, rfl⟩

/-- C6, amended. Per URL: a clean URL produces no entry and a malformed
URL exactly one entry of risk 0.3; a parsed URL yields one entry per
matched category — shortener 0.4, suspicious TLD 0.5, bare-IP host 0.6 —
and the categories are not mutually exclusive, so up to three entries can
appear for one URL. The URL contribution to the overall risk is the
maximum of the finding risks, and 0 when there are no findings. -/
theorem C6_amended_url_checker (parseHost : String → Option String)
    (urls : List String) :
    checkUrlSafety parseHost urls = urls.flatMap (urlFindingsFor parseHost)
    ∧ (∀ url, parseHost url = none →
        urlFindingsFor parseHost url = [⟨url, mkRat 3 10, "Malformed URL"⟩])
    ∧ (∀ url host, parseHost url = some host →
        shorteners.any (fun sh => containsSub host sh) = false →
        suspiciousTlds.any (fun tld => jsEndsWith host tld) = false →
        ipPrefixTest host = false →
        urlFindingsFor parseHost url = [])
    ∧ (∀ url, ∀ f ∈ urlFindingsFor parseHost url, f.url = url
        ∧ ((f.risk = mkRat 3 10 ∧ f.reason = "Malformed URL")
          ∨ (f.risk = mkRat 4 10
            ∧ f.reason = "URL shortener detected - potential redirect hiding")
          ∨ (f.risk = mkRat 5 10 ∧ f.reason = "Suspicious top-level domain")
          ∨ (f.risk = mkRat 6 10
            ∧ f.reason = "Direct IP address instead of domain name")))
    ∧ (∀ url, (urlFindingsFor parseHost url).length ≤ 3)
    ∧ urlRiskOf [] = 0
    ∧ (∀ findings : List UrlFinding, ∀ f ∈ findings,
        f.risk ≤ urlRiskOf findings)
    ∧ (∀ findings : List UrlFinding, urlRiskOf findings = 0
        ∨ urlRiskOf findings ∈ findings.map (fun f => f.risk)) := by
  refine ⟨rfl, ?_, ?_, ?_, ?_, rfl, ?_, ?_⟩
  · intro url h
    unfold urlFindingsFor
    rw [h]
  · intro url host h h1 h2 h3
    unfold urlFindingsFor
    rw [h]
    dsimp only
    rw [h1, h2, h3]
    simp
  · intro url f hf
    unfold urlFindingsFor at hf
    cases hp : parseHost url with
    | none =>
      rw [hp] at hf
      simp only [List.mem_singleton] at hf
      subst hf
      exact ⟨rfl, Or.inl ⟨rfl, rfl⟩⟩
    | some host =>
      rw [hp] at hf
      rcases List.mem_append.mp hf with hf' | hf3
      · rcases List.mem_append.mp hf' with hf1 | hf2
        · by_cases h1 : shorteners.any (fun sh => containsSub host sh) = true
          · rw [if_pos h1] at hf1
            simp only [List.mem_singleton] at hf1
            subst hf1
            exact ⟨rfl, Or.inr (Or.inl ⟨rfl, rfl⟩)⟩
          · rw [if_neg h1] at hf1
            simp at hf1
        · by_cases h2 : suspiciousTlds.any (fun tld => jsEndsWith host tld) = true
          · rw [if_pos h2] at hf2
            simp only [List.mem_singleton] at hf2
            subst hf2
            exact ⟨rfl, Or.inr (Or.inr (Or.inl ⟨rfl, rfl⟩))⟩
          · rw [if_neg h2] at hf2
            simp at hf2
      · by_cases h3 : ipPrefixTest host = true
        · rw [if_pos h3] at hf3
          simp only [List.mem_singleton] at hf3
          subst hf3
          exact ⟨rfl, Or.inr (Or.inr (Or.inr ⟨rfl, rfl⟩))⟩
        · rw [if_neg h3] at hf3
          simp at hf3
  · intro url
    unfold urlFindingsFor
    cases parseHost url with
    | none => simp
    | some host =>
      dsimp only
      split_ifs <;> simp
  · intro findings f hf
    exact le_foldl_max_of_mem _ 0 f.risk (List.mem_map_of_mem _ hf)
  · intro findings
    exact foldl_max_or_mem (findings.map (fun f => f.risk)) 0

/-- Witness for the amended C6 at concrete URLs. -/
theorem C6_amended_url_checker_witness :
    urlFindingsFor tkParseHost "nope" = [⟨"nope", mkRat 3 10, "Malformed URL"⟩]
    ∧ urlFindingsFor cleanParseHost "https://example.com" = []
    ∧ mkRat 4 10
        ≤ urlRiskOf [⟨"u", mkRat 4 10, "r"⟩] :=
  ⟨(C6_amended_url_checker tkParseHost []).2.1 "nope" rfl,
   (C6_amended_url_checker cleanParseHost []).2.2.1 "https://example.com"
     "example.com" rfl (by decide) (by decide) (by decide),
   (C6_amended_url_checker cleanParseHost []).2.2.2.2.2.2.1
     [⟨"u", mkRat 4 10, "r"⟩] ⟨"u", mkRat 4 10, "r"⟩ (by decide)⟩

/-- C3, counterexample. After the item `mod_1` has been reviewed (its
stored status is REVIEWED), a second review action on it does not fail: it
returns success and overwrites the stored review fields (`reviewedBy`
becomes `rev2`), refuting "a review action on an item whose status is
already REVIEWED fails" and "a reviewed item's stored state is never
modified again". -/
theorem C3_counterexample :
    ((medQueue1.find? (fun i => i.id = "mod_1")).map (fun i => i.status)
      = some QStatus.REVIEWED)
    ∧ (reviewHandler medQueue1 "mod_1" "APPROVE" (some "n2") (some "rev2")
        "t2").toOption.isSome = true
    ∧ ((reviewHandler medQueue1 "mod_1" "APPROVE" (some "n2") (some "rev2")
        "t2").toOption.map (fun p => p.2.reviewedBy) = some (some "rev2")) :=
  ⟨rfl, rfl, rfl⟩

/-- C3, amended. A successful review action sets the reviewed item's
status to REVIEWED; it deletes nothing (the queue keeps its length) and
positionally either leaves an item untouched or turns it into the REVIEWED
update of the same item (same id, campaign and creation timestamp) — so
status only ever moves PENDING→REVIEWED and never back. A second review of
an already-REVIEWED item, however, succeeds again and overwrites the
stored review fields (no already-reviewed guard exists). -/
theorem C3_amended_review_transition (queue : List QueueItem)
    (id decision : String) (notes reviewerId : Option String) (now : String)
    (q' : List QueueItem) (item : QueueItem)
    (h : reviewHandler queue id decision notes reviewerId now
      = Except.ok (q', item)) :
    item.status = QStatus.REVIEWED
    ∧ q'.length = queue.length
    ∧ (∀ x ∈ q'.zip queue, x.1 = x.2
        ∨ (x.1.status = QStatus.REVIEWED ∧ x.1.id = x.2.id
          ∧ x.1.campaign = x.2.campaign ∧ x.1.createdAt = x.2.createdAt)) := by
  unfold reviewHandler at h
  cases hf : queue.find? (fun i => i.id = id) with
  | none =>
    rw [hf] at h
    exact absurd h (by simp)
  | some it =>
    rw [hf] at h
    dsimp only at h
    by_cases hd : (decision = "APPROVE" || decision = "REJECT") = true
    · rw [if_pos hd] at h
      have hq : q' = updateFirst (fun i => i.id = id)
          (applyReview decision notes reviewerId now) queue := by
        cases h
        rfl
      have hit : item = applyReview decision notes reviewerId now it := by
        cases h
        rfl
      subst hq
      subst hit
      refine ⟨rfl, updateFirst_length _ _ _, ?_⟩
      intro x hx
      rcases updateFirst_zip _ _ queue x hx with h1 | h2
      · exact Or.inl h1
      · exact Or.inr ⟨by rw [h2]; rfl, by rw [h2]; rfl, by rw [h2]; rfl,
          by rw [h2]; rfl⟩
    · rw [if_neg hd] at h
      exact absurd h (by simp)

/-- Witness for the amended C3 at the reachable concrete queue. -/
theorem C3_amended_review_transition_witness :
    reviewHandler medQueue "mod_1" "REJECT" (some "spam") (some "rev1") "t1"
      = Except.ok (medQueue1, medItem1)
    ∧ medItem1.status = QStatus.REVIEWED
    ∧ medQueue1.length = medQueue.length :=
  ⟨rfl,
   (C3_amended_review_transition medQueue "mod_1" "REJECT" (some "spam")
     (some "rev1") "t1" medQueue1 medItem1 rfl).1,
   (C3_amended_review_transition medQueue "mod_1" "REJECT" (some "spam")
     (some "rev1") "t1" medQueue1 medItem1 rfl).2.1⟩

end CrowdUp
